import Mathlib

/-!
Verification of the MAC-count estimator of this repository.

The estimator (`source/macs.js`, class `macs.Calculator`) computes an
approximate multiply-accumulate count for a single graph node from its
declared type name, input/output argument shapes and attributes.  We embed
the JavaScript module shallowly: JavaScript objects become Lean structures
with `Option` fields for possibly-absent properties, JavaScript numbers
holding tensor dimensions become `ℤ`, and the result of `calculate` — a
JavaScript number or `null` — becomes `Option ℚ` (the one division in the
convolution formula is exact real division in JavaScript; all values the
claims touch are exactly representable, so `ℚ` is a faithful carrier).
-/

namespace Macs

/-- A tensor dimension as it appears in the parsed model: a plain
JavaScript number (`typeof d === 'number'`), a Long.js-style object
carrying a `toNumber` method, or a dynamic/unknown marker (a string,
`null`, or any other non-numeric placeholder). -/
inductive Dim where
  | num (n : ℤ)
  | long (n : ℤ)
  | dyn (marker : Option String)
deriving DecidableEq

/-- The `shape` object of a tensor type; its `dimensions` array may be
absent (`none`), and `some []` is a genuine zero-dimensional shape. -/
structure ShapeObj where
  dimensions : Option (List Dim)
deriving DecidableEq

/-- The `type` object of a `Value`; the `shape` property may be absent. -/
structure TensorType where
  shape : Option ShapeObj
deriving DecidableEq

/-- A `Value` object (model.js terminology); its `type` may be absent. -/
structure Value where
  type : Option TensorType
deriving DecidableEq

/-- An `Argument`: a named input/output slot.  `name` is an optional
string; `value` is an optional array of `Value` objects (absent or a
non-array is `none`, and an empty array means "no bound tensor"). -/
structure Argument where
  name : Option String
  value : Option (List Value)
deriving DecidableEq

/-- `node.type`: carries the raw operator name; absent or empty names are
rejected by `calculate` (JavaScript `!node.type.name` is also true for the
empty string). -/
structure NodeType where
  name : Option String
deriving DecidableEq

/-- An attribute value: a scalar or a sequence of integers. -/
inductive AttrVal where
  | scalar (n : ℤ)
  | seq (l : List ℤ)
deriving DecidableEq

/-- A named node attribute. -/
structure Attrib where
  name : String
  value : AttrVal
deriving DecidableEq

/-- A graph node as seen by the estimator: `type`, `inputs`, `outputs`
may each be absent; `attributes` is the attribute list (unused by the
`macs.js` cost paths, read by the spec-modelled shape inferencer). -/
structure Node where
  type : Option NodeType
  inputs : Option (List Argument)
  outputs : Option (List Argument)
  attributes : List Attrib
deriving DecidableEq

/-- Sanitization of one dimension, from `_getTensorShape`:
a JavaScript number maps to itself, a Long.js object maps to its
`toNumber()` value, anything else (string, `null`, dynamic marker) maps
to the constant `1`. -/
def cleanDim : Dim → ℤ
  | .num n => n
  | .long n => n
  | .dyn _ => 1

/-- `_getTensorShape(parameter)`: extract and sanitize the shape of the
first `Value` bound to an argument; every absence along the path yields
`null`. -/
def getTensorShape : Option Argument → Option (List ℤ)
  | none => none
  | some a =>
    match a.value with
    | none => none
    | some values =>
      match values with
      | [] => none
      | v :: _ =>
        match v.type with
        | none => none
        | some t =>
          match t.shape with
          | none => none
          | some sh =>
            match sh.dimensions with
            | none => none
            | some dims => some (dims.map cleanDim)

/-- `shape.reduce((a, b) => a * b, 1)`: the element count of a shape,
with the empty product equal to `1`. -/
def numel (l : List ℤ) : ℤ := l.foldl (· * ·) 1

/-- JavaScript `String.prototype.split('::')` over the character list:
scan left to right, breaking at each (non-overlapping) occurrence of the
two-character separator `::`.  Always returns at least one chunk, exactly
like the JavaScript `split`. -/
def splitColons : List Char → List Char → List (List Char)
  | [], acc => [acc.reverse]
  | ':' :: ':' :: rest, acc => acc.reverse :: splitColons rest []
  | c :: rest, acc => splitColons rest (c :: acc)

/-- `type.split('::').pop().toLowerCase()`: the substring after the last
`::` separator, lower-cased (the claims only exercise ASCII names, on
which `Char.toLower` agrees with JavaScript `toLowerCase`). -/
def normalizeName (s : String) : String :=
  String.mk (((splitColons s.data []).getLastD []).map Char.toLower)

/-- `_computeConv(node)` from `source/macs.js`. -/
def computeConv (node : Node) : Option ℚ :=
  match node.inputs with
  | none => none
  | some inputs =>
    if inputs.length < 2 then none
    else
      let weight := getTensorShape (inputs.get? 1)
      match node.outputs with
      | none => none
      | some outputs =>
        if outputs.length < 1 then none
        else
          let output := getTensorShape (outputs.get? 0)
          match weight, output with
          | some w, some o =>
            if o.length < 3 ∨ w.length < 3 then none
            else
              let outputElements := numel o
              let weightElements := numel w
              let outChannels := w.headD 0
              if outChannels = 0 then none
              else some ((outputElements : ℚ) * ((weightElements : ℚ) / (outChannels : ℚ)))
          | _, _ => none

/-- `_computeLinear(node)` from `source/macs.js`.  The operator name is
re-read from `node.type.name` inside the function (line 133); when the
type is absent the name defaults to the empty string, which matches no
branch — `calculate` never reaches that case. -/
def computeLinear (node : Node) : Option ℚ :=
  match node.inputs, node.outputs with
  | some inputs, some outputs =>
    if inputs.length < 2 ∨ outputs.length < 1 then none
    else
      let input1 := getTensorShape (inputs.get? 1)
      match getTensorShape (outputs.get? 0) with
      | none => none
      | some output =>
        match input1 with
        | none => none
        | some w =>
          let name :=
            match node.type with
            | some t =>
              match t.name with
              | some s => normalizeName s
              | none => ""
            | none => ""
          if name = "linear" ∧ 2 ≤ w.length then
            some ((numel output : ℚ) * (((w.get? 1).getD 0 : ℤ) : ℚ))
          else if name = "matmul" ∨ name = "gemm" then
            match getTensorShape (inputs.get? 0) with
            | some input0 =>
              if 0 < input0.length then
                some ((numel output : ℚ) * ((input0.getLastD 0 : ℤ) : ℚ))
              else none
            | none => none
          else none
  | _, _ => none

/-- `calculate(node)` from `source/macs.js`: guard the type name, split
off the namespace, lower-case, and dispatch on the two closed synonym
sets. -/
def calculate (node : Node) : Option ℚ :=
  match node.type with
  | none => none
  | some t =>
    match t.name with
    | none => none
    | some tname =>
      if tname = "" then none
      else
        let name := normalizeName tname
        if name = "conv2d" ∨ name = "conv" ∨ name = "convolution" ∨
            name = "conv1d" ∨ name = "conv3d" then
          computeConv node
        else if name = "linear" ∨ name = "gemm" ∨ name = "matmul" then
          computeLinear node
        else none

/-- Convenience constructor: an argument carrying one tensor of the given
dimension list. -/
def shapedArg (nm : Option String) (dims : List Dim) : Argument :=
  Argument.mk nm (some [Value.mk (some (TensorType.mk (some (ShapeObj.mk (some dims)))))])

/-- Convenience: a list of concrete numeric dimensions. -/
def natDims (l : List ℤ) : List Dim := l.map Dim.num

/-- Convenience constructor: an argument bound to a tensor whose type has
no shape at all. -/
def shapelessArg (nm : Option String) : Argument :=
  Argument.mk nm (some [Value.mk (some (TensorType.mk none))])

/-- The data-model constraint on a declared dimension: a numeric
dimension is a non-negative integer; dynamic markers are unconstrained. -/
def dimNonneg : Dim → Prop
  | .num n => 0 ≤ n
  | .long n => 0 ≤ n
  | .dyn _ => True

namespace SpecModel

/-- Modelled from the spec: lower-casing of an argument name for the
case-insensitive comparisons of the Operand Resolver (spec section 4.2),
which is part of the final estimator iteration missing from `src/`. -/
def lowerChars (s : String) : List Char := s.data.map Char.toLower

/-- Modelled from the spec: the name-based weight test of the Operand
Resolver (spec section 4.2), missing from `src/` — an argument matches
the weight role when its name (case-insensitive) ends with `"weight"` or
equals the slot label `"W"` (or `"B"` for the second Gemm operand). -/
def matchesWeightName (isGemm : Bool) (a : Argument) : Bool :=
  match a.name with
  | none => false
  | some s =>
    let n := lowerChars s
    List.isSuffixOf "weight".data n || n == ['w'] || (isGemm && n == ['b'])

/-- Modelled from the spec: weight-operand resolution (spec section 4.2),
missing from `src/` — scan `node.inputs` for a name-based match, first
match wins; only when none exists fall back to the positional convention
`inputs[1]`, failing when that index is out of bounds. -/
def resolveWeight (isGemm : Bool) (inputs : List Argument) : Option Argument :=
  match inputs.find? (matchesWeightName isGemm) with
  | some a => some a
  | none => inputs.get? 1

/-- Modelled from the spec: attribute lookup by any of the accepted
names (spec sections 3 and 4.4; e.g. `padding`/`pads`). -/
def attrLookup (attrs : List Attrib) (names : List String) : Option AttrVal :=
  (attrs.find? (fun a => names.contains a.name)).map Attrib.value

/-- Modelled from the spec: stride/dilation normalization of the Shape
Inferencer (spec section 4.4), missing from `src/` — absent uses the
default for both axes, a scalar broadcasts to both axes, an explicit
2-element pair is taken as is; any other form fails. -/
def pairOf (dflt : ℤ) (v : Option AttrVal) : Option (ℤ × ℤ) :=
  match v with
  | none => some (dflt, dflt)
  | some (.scalar n) => some (n, n)
  | some (.seq [a, b]) => some (a, b)
  | some (.seq _) => none

/-- Modelled from the spec: padding normalization of the Shape Inferencer
(spec section 4.4), missing from `src/` — absent means `[0,0]`; a
2-element symmetric form doubles each value; a 4-element begin/end form
sums the pair per axis; any other form fails. -/
def padOf (v : Option AttrVal) : Option (ℤ × ℤ) :=
  match v with
  | none => some (0, 0)
  | some (.seq [a, b]) => some (2 * a, 2 * b)
  | some (.seq [a, b, c, d]) => some (a + c, b + d)
  | some _ => none

/-- Modelled from the spec: the per-axis output-size formula of the Shape
Inferencer (spec section 4.4), missing from `src/`:
`floor((In + Pad - Dilation*(K-1) - 1) / Stride + 1)`. -/
def convOutDim (inD pad dil k stride : ℤ) : ℤ :=
  Int.fdiv (inD + pad - dil * (k - 1) - 1) stride + 1

/-- Modelled from the spec: convolution output-shape inference (spec
section 4.4), missing from `src/` — requires a 4-dimensional primary
input `[N, Cin, Hin, Win]` and a 4-dimensional weight `[Cout, *, Kh, Kw]`
and produces `[N, Cout, Hout, Wout]`. -/
def inferConvOutput (input weight : List ℤ) (attrs : List Attrib) :
    Option (List ℤ) :=
  match input, weight with
  | [n, _cin, hin, win], [cout, _cg, kh, kw] => do
    let (sh, sw) ← pairOf 1 (attrLookup attrs ["stride"])
    let (ph, pw) ← padOf (attrLookup attrs ["padding", "pads"])
    let (dh, dw) ← pairOf 1 (attrLookup attrs ["dilation"])
    some [n, cout, convOutDim hin ph dh kh sh, convOutDim win pw dw kw sw]
  | _, _ => none

/-- Modelled from the spec: dense output-shape derivation (spec section
4.5), missing from `src/` — the input's leading dimensions concatenated
with the weight's leading dimension. -/
def inferDenseOutput (input weight : List ℤ) : Option (List ℤ) :=
  match weight with
  | w0 :: _ => some (input.dropLast ++ [w0])
  | [] => none

/-- Modelled from the spec: the Convolution path of the design-target
estimator (spec sections 4.2, 4.4 and 4.6), whose final iteration is
missing from `src/` — name-based weight resolution, declared output
shape with analytic inference as fallback, and the cost formula
`numel(output) * (numel(weight) / weight[0])`, failing on `weight[0] = 0`
or fewer than 3 dimensions on either shape. -/
def computeConvSpec (node : Node) : Option ℚ :=
  match node.inputs, node.outputs with
  | some inputs, some outputs =>
    match getTensorShape (resolveWeight false inputs) with
    | none => none
    | some w =>
      let derived :=
        match getTensorShape (outputs.get? 0) with
        | some o => some o
        | none =>
          match getTensorShape (inputs.get? 0) with
          | some i => inferConvOutput i w node.attributes
          | none => none
      match derived with
      | none => none
      | some o =>
        if o.length < 3 ∨ w.length < 3 then none
        else
          let oc := w.headD 0
          if oc = 0 then none
          else some ((numel o : ℚ) * ((numel w : ℚ) / ((oc : ℤ) : ℚ)))
  | _, _ => none

/-- Modelled from the spec: the Dense path of the design-target estimator
(spec sections 4.2, 4.5 and 4.6), whose final iteration is missing from
`src/` — name-based weight resolution (with the Gemm `B` slot label),
declared output shape with dense derivation as fallback, `linear` cost
`numel(output) * weight[1]`, and `gemm`/`matmul` cost
`numel(output) * input[last]`. -/
def computeDenseSpec (node : Node) (name : String) : Option ℚ :=
  match node.inputs, node.outputs with
  | some inputs, some outputs =>
    let w? := getTensorShape (resolveWeight (name == "gemm") inputs)
    let derived :=
      match getTensorShape (outputs.get? 0) with
      | some o => some o
      | none =>
        match w?, getTensorShape (inputs.get? 0) with
        | some w, some i => inferDenseOutput i w
        | _, _ => none
    match derived with
    | none => none
    | some o =>
      if name == "linear" then
        match w? with
        | some w =>
          if 2 ≤ w.length then some ((numel o : ℚ) * (((w.get? 1).getD 0 : ℤ) : ℚ))
          else none
        | none => none
      else
        match getTensorShape (inputs.get? 0) with
        | some i =>
          if 0 < i.length then some ((numel o : ℚ) * ((i.getLastD 0 : ℤ) : ℚ))
          else none
        | none => none
  | _, _ => none

/-- Modelled from the spec: the design-target `calculate` (spec sections
4.1 and 4.6), whose final iteration is missing from `src/` — classify the
type name exactly as `source/macs.js` does and dispatch to the modelled
Convolution or Dense path. -/
def calculateSpec (node : Node) : Option ℚ :=
  match node.type with
  | none => none
  | some t =>
    match t.name with
    | none => none
    | some tname =>
      if tname = "" then none
      else
        let name := normalizeName tname
        if name = "conv2d" ∨ name = "conv" ∨ name = "convolution" ∨
            name = "conv1d" ∨ name = "conv3d" then
          computeConvSpec node
        else if name = "linear" ∨ name = "gemm" ∨ name = "matmul" then
          computeDenseSpec node name
        else none

end SpecModel

/-- The stride/padding/dilation attributes of the spec's convolution
shape-inference example. -/
def c1Attrs : List Attrib :=
  [Attrib.mk "stride" (AttrVal.seq [1, 1]),
   Attrib.mk "padding" (AttrVal.seq [1, 1]),
   Attrib.mk "dilation" (AttrVal.seq [1, 1])]

/-- A convolution node whose output argument carries no extractable
shape: input `[1,3,32,32]`, weight `[16,3,3,3]`, stride/padding/dilation
`[1,1]`. -/
def c1NodeInferred : Node :=
  Node.mk (some (NodeType.mk (some "Conv")))
    (some [shapedArg (some "input") (natDims [1, 3, 32, 32]),
           shapedArg (some "weight") (natDims [16, 3, 3, 3])])
    (some [shapelessArg (some "output")]) c1Attrs

/-- The same convolution node with the output shape `[1,16,32,32]`
declared directly. -/
def c1NodeDirect : Node :=
  Node.mk (some (NodeType.mk (some "Conv")))
    (some [shapedArg (some "input") (natDims [1, 3, 32, 32]),
           shapedArg (some "weight") (natDims [16, 3, 3, 3])])
    (some [shapedArg (some "output") (natDims [1, 16, 32, 32])]) c1Attrs

/-- A weight argument named `fc.weight`, placed away from index 1. -/
def c6WeightArg : Argument := shapedArg (some "fc.weight") (natDims [64, 128])

/-- Inputs of a linear node whose weight-named argument sits at index 2,
with a differently-shaped argument at the positional fallback index 1. -/
def c6Inputs : List Argument :=
  [shapedArg (some "x") (natDims [10, 128]),
   shapedArg (some "bias") (natDims [5, 7]),
   c6WeightArg]

/-- The linear node built from `c6Inputs`, with output shape `[10,64]`. -/
def c6Node : Node :=
  Node.mk (some (NodeType.mk (some "Linear"))) (some c6Inputs)
    (some [shapedArg none (natDims [10, 64])]) []

/-- Inputs with no argument names at all, for the positional fallback. -/
def c6NoNameInputs : List Argument :=
  [shapedArg none (natDims [10, 128]), shapedArg none (natDims [64, 128])]

/-- Shape extraction can only succeed on an argument that exists, so a
successful extraction at index `i` bounds the list length. -/
lemma lt_length_of_shape {l : List Argument} {i : ℕ} {s : List ℤ}
    (h : getTensorShape (l.get? i) = some s) : i < l.length := by
  by_contra hlt
  rw [List.get?_eq_none.mpr (by omega)] at h
  simp [getTensorShape] at h

end Macs


namespace Macs

/-- C2: for every node classified as Convolution whose weight shape
(input index 1) and output shape (output index 0) both resolve with at
least 3 dimensions, `calculate` returns
`numel(output) * (numel(weight) / weight[0])`, and returns `null` when
`weight[0] = 0`. -/
theorem conv_cost_formula (tn : String) (ins outs : List Argument)
    (attrs : List Attrib) (w o : List ℤ)
    (hclass : normalizeName tn = "conv2d" ∨ normalizeName tn = "conv" ∨
      normalizeName tn = "convolution" ∨ normalizeName tn = "conv1d" ∨
      normalizeName tn = "conv3d")
    (hw : getTensorShape (ins.get? 1) = some w)
    (ho : getTensorShape (outs.get? 0) = some o)
    (hwl : 3 ≤ w.length) (hol : 3 ≤ o.length) :
    (w.headD 0 = 0 →
      calculate (Node.mk (some (NodeType.mk (some tn))) (some ins) (some outs) attrs)
        = none) ∧
    (w.headD 0 ≠ 0 →
      calculate (Node.mk (some (NodeType.mk (some tn))) (some ins) (some outs) attrs)
        = some ((numel o : ℚ) * ((numel w : ℚ) / ((w.headD 0 : ℤ) : ℚ)))) := by
  have htn : ¬ tn = "" := by
    rintro rfl
    revert hclass
    decide
  have hins : 1 < ins.length := lt_length_of_shape hw
  have houts : 0 < outs.length := lt_length_of_shape ho
  have key : calculate (Node.mk (some (NodeType.mk (some tn))) (some ins) (some outs) attrs)
      = if w.headD 0 = 0 then none
        else some ((numel o : ℚ) * ((numel w : ℚ) / ((w.headD 0 : ℤ) : ℚ))) := by
    simp only [calculate]
    rw [if_neg htn, if_pos hclass]
    simp only [computeConv]
    rw [if_neg (by omega : ¬ ins.length < 2), if_neg (by omega : ¬ outs.length < 1)]
    rw [hw, ho]
    dsimp only
    rw [if_neg (by omega : ¬ (o.length < 3 ∨ w.length < 3))]
  constructor
  · intro h0
    rw [key, if_pos h0]
  · intro h0
    rw [key, if_neg h0]

/-- Witness for C2 at the spec's concrete inputs: weight `[8,3,3,3]`,
output `[1,8,10,10]` yield `21600`. -/
theorem conv_cost_formula_witness :
    calculate (Node.mk (some (NodeType.mk (some "Conv")))
      (some [shapedArg (some "input") (natDims [1, 3, 10, 10]),
             shapedArg (some "weight") (natDims [8, 3, 3, 3])])
      (some [shapedArg (some "output") (natDims [1, 8, 10, 10])]) []) = some 21600 := by
  have h := (conv_cost_formula "Conv"
      [shapedArg (some "input") (natDims [1, 3, 10, 10]),
       shapedArg (some "weight") (natDims [8, 3, 3, 3])]
      [shapedArg (some "output") (natDims [1, 8, 10, 10])] []
      [8, 3, 3, 3] [1, 8, 10, 10]
      (by decide) (by decide) (by decide) (by decide) (by decide)).2 (by decide)
  rw [h]
  simp [numel]
  norm_num

end Macs

namespace Macs

/-- C4: for every node whose normalized operator name is `linear`, with a
resolved weight shape of at least 2 dimensions and a resolved output
shape, `calculate` returns `numel(output) * weight[1]`. -/
theorem linear_cost_formula (tn : String) (ins outs : List Argument)
    (attrs : List Attrib) (w o : List ℤ)
    (hname : normalizeName tn = "linear")
    (hw : getTensorShape (ins.get? 1) = some w)
    (hwl : 2 ≤ w.length)
    (ho : getTensorShape (outs.get? 0) = some o) :
    calculate (Node.mk (some (NodeType.mk (some tn))) (some ins) (some outs) attrs)
      = some ((numel o : ℚ) * (((w.get? 1).getD 0 : ℤ) : ℚ)) := by
  have htn : ¬ tn = "" := by
    rintro rfl
    rw [show normalizeName "" = "" from rfl] at hname
    exact absurd hname (by decide)
  have hins : 1 < ins.length := lt_length_of_shape hw
  have houts : 0 < outs.length := lt_length_of_shape ho
  simp only [calculate]
  rw [if_neg htn, hname]
  rw [if_neg (by decide : ¬ (("linear" : String) = "conv2d" ∨ ("linear" : String) = "conv" ∨
    ("linear" : String) = "convolution" ∨ ("linear" : String) = "conv1d" ∨
    ("linear" : String) = "conv3d"))]
  rw [if_pos (by decide : ("linear" : String) = "linear" ∨ ("linear" : String) = "gemm" ∨
    ("linear" : String) = "matmul")]
  simp only [computeLinear]
  rw [if_neg (by omega : ¬ (ins.length < 2 ∨ outs.length < 1))]
  rw [ho]
  dsimp only
  rw [hw]
  dsimp only
  rw [hname]
  rw [if_pos (⟨rfl, hwl⟩ : ("linear" : String) = "linear" ∧ 2 ≤ w.length)]

/-- Witness for C4 at the spec's concrete inputs: weight `[64,128]`,
output `[10,64]` yield `81920`. -/
theorem linear_cost_formula_witness :
    calculate (Node.mk (some (NodeType.mk (some "aten::Linear")))
      (some [shapedArg (some "input") (natDims [10, 128]),
             shapedArg (some "weight") (natDims [64, 128])])
      (some [shapedArg none (natDims [10, 64])]) []) = some 81920 := by
  have h := linear_cost_formula "aten::Linear"
      [shapedArg (some "input") (natDims [10, 128]),
       shapedArg (some "weight") (natDims [64, 128])]
      [shapedArg none (natDims [10, 64])] []
      [64, 128] [10, 64]
      (by decide) (by decide) (by decide) (by decide)
  rw [h]
  norm_num [numel]

/-- C3 (counterexample): a `MatMul` node with primary-input shape
`[4,8,16]` and output shape `[4,8,32]` but no resolvable weight shape
yields `null`, not `16384`: the matmul/gemm branch of `_computeLinear` is
gated behind a non-null `input1`. -/
theorem matmul_no_weight_counterexample :
    calculate (Node.mk (some (NodeType.mk (some "MatMul")))
      (some [shapedArg none (natDims [4, 8, 16]), shapelessArg none])
      (some [shapedArg none (natDims [4, 8, 32])]) []) = none := by
  simp +decide [calculate, computeLinear, getTensorShape, shapedArg, shapelessArg,
    natDims, normalizeName, cleanDim]

/-- C3 (amended): for a `gemm`/`matmul` node, when the weight operand's
shape ALSO resolves (the branch is gated on it), and the primary input's
resolved shape has at least 1 dimension and the output shape is resolved,
`calculate` returns `numel(output) * input[last]`. -/
theorem matmul_cost_with_weight (tn : String) (ins outs : List Argument)
    (attrs : List Attrib) (w i0 o : List ℤ)
    (hname : normalizeName tn = "gemm" ∨ normalizeName tn = "matmul")
    (hw : getTensorShape (ins.get? 1) = some w)
    (hi : getTensorShape (ins.get? 0) = some i0)
    (hil : 0 < i0.length)
    (ho : getTensorShape (outs.get? 0) = some o) :
    calculate (Node.mk (some (NodeType.mk (some tn))) (some ins) (some outs) attrs)
      = some ((numel o : ℚ) * ((i0.getLastD 0 : ℤ) : ℚ)) := by
  have htn : ¬ tn = "" := by
    rintro rfl
    rcases hname with h | h <;>
      · rw [show normalizeName "" = "" from rfl] at h
        exact absurd h (by decide)
  have hnotconv : ¬ (normalizeName tn = "conv2d" ∨ normalizeName tn = "conv" ∨
      normalizeName tn = "convolution" ∨ normalizeName tn = "conv1d" ∨
      normalizeName tn = "conv3d") := by
    rcases hname with h | h <;> rw [h] <;> decide
  have hdense : normalizeName tn = "linear" ∨ normalizeName tn = "gemm" ∨
      normalizeName tn = "matmul" := hname.elim (fun h => Or.inr (Or.inl h))
    (fun h => Or.inr (Or.inr h))
  have hnotlin : ¬ normalizeName tn = "linear" := by
    rcases hname with h | h <;> rw [h] <;> decide
  have hmm : normalizeName tn = "matmul" ∨ normalizeName tn = "gemm" :=
    hname.elim Or.inr Or.inl
  have hins : 1 < ins.length := lt_length_of_shape hw
  have houts : 0 < outs.length := lt_length_of_shape ho
  simp only [calculate]
  rw [if_neg htn, if_neg hnotconv, if_pos hdense]
  simp only [computeLinear]
  rw [if_neg (by omega : ¬ (ins.length < 2 ∨ outs.length < 1))]
  rw [ho]
  dsimp only
  rw [hw]
  dsimp only
  rw [if_neg (fun hc => hnotlin hc.1), if_pos hmm]
  rw [hi]
  dsimp only
  rw [if_pos hil]

/-- Witness for the amended C3: same shapes as the spec's example but
with a present weight shape `[16,32]`; the cost is `16384`. -/
theorem matmul_cost_with_weight_witness :
    calculate (Node.mk (some (NodeType.mk (some "MatMul")))
      (some [shapedArg none (natDims [4, 8, 16]), shapedArg none (natDims [16, 32])])
      (some [shapedArg none (natDims [4, 8, 32])]) []) = some 16384 := by
  have h := matmul_cost_with_weight "MatMul"
      [shapedArg none (natDims [4, 8, 16]), shapedArg none (natDims [16, 32])]
      [shapedArg none (natDims [4, 8, 32])] []
      [16, 32] [4, 8, 16] [4, 8, 32]
      (by decide) (by decide) (by decide) (by decide) (by decide)
  rw [h]
  norm_num [numel]

end Macs

namespace Macs

/-- C5: the classifier takes the substring after the last `::`,
lower-cases it, and tests exact membership in the two closed synonym
sets; any other type name — including an absent type, an absent name and
the empty name — makes `calculate` return `null`; and `"Conv"`,
`"conv2d"`, `"ns::Conv2d"` all normalize into the Convolution set. -/
theorem classifier_closed_sets :
    (∀ (node : Node) (tn : String), node.type = some (NodeType.mk (some tn)) →
      ¬ (normalizeName tn = "conv2d" ∨ normalizeName tn = "conv" ∨
         normalizeName tn = "convolution" ∨ normalizeName tn = "conv1d" ∨
         normalizeName tn = "conv3d") →
      ¬ (normalizeName tn = "linear" ∨ normalizeName tn = "gemm" ∨
         normalizeName tn = "matmul") →
      calculate node = none) ∧
    (∀ node : Node, node.type = none → calculate node = none) ∧
    (∀ node : Node, node.type = some (NodeType.mk none) → calculate node = none) ∧
    (∀ node : Node, node.type = some (NodeType.mk (some "")) → calculate node = none) ∧
    (normalizeName "Conv" = "conv" ∧ normalizeName "conv2d" = "conv2d" ∧
     normalizeName "ns::Conv2d" = "conv2d") := by
  refine ⟨?_, ?_, ?_, ?_, by decide⟩
  · intro node tn htype hnc hnl
    obtain ⟨ty, ins, outs, attrs⟩ := node
    dsimp only at htype
    subst htype
    simp only [calculate]
    by_cases h0 : tn = ""
    · rw [if_pos h0]
    · rw [if_neg h0, if_neg hnc, if_neg hnl]
  · intro node htype
    obtain ⟨ty, ins, outs, attrs⟩ := node
    dsimp only at htype
    subst htype
    rfl
  · intro node htype
    obtain ⟨ty, ins, outs, attrs⟩ := node
    dsimp only at htype
    subst htype
    rfl
  · intro node htype
    obtain ⟨ty, ins, outs, attrs⟩ := node
    dsimp only at htype
    subst htype
    simp [calculate]

/-- Witness for C5: a `"Relu"` node — normalizing to neither synonym
set — yields `null`. -/
theorem classifier_closed_sets_witness :
    calculate (Node.mk (some (NodeType.mk (some "Relu")))
      (some [shapedArg none (natDims [1, 8]), shapedArg none (natDims [8, 8])])
      (some [shapedArg none (natDims [1, 8])]) []) = none :=
  classifier_closed_sets.1
    (Node.mk (some (NodeType.mk (some "Relu")))
      (some [shapedArg none (natDims [1, 8]), shapedArg none (natDims [8, 8])])
      (some [shapedArg none (natDims [1, 8])]) [])
    "Relu" rfl (by decide) (by decide)

/-- C8: sanitization maps every numeric dimension (plain or Long.js) to
itself and every dynamic marker to `1`, and a convolution node whose
weight and output shapes consist entirely of dynamic dimensions still
gets the defined cost `1` (the all-ones shapes), not `null`. -/
theorem dynamic_dims_sanitized :
    (∀ n : ℤ, cleanDim (Dim.num n) = n) ∧
    (∀ n : ℤ, cleanDim (Dim.long n) = n) ∧
    (∀ m : Option String, cleanDim (Dim.dyn m) = 1) ∧
    calculate (Node.mk (some (NodeType.mk (some "Conv")))
      (some [shapelessArg none,
             shapedArg none [Dim.dyn none, Dim.dyn (some "C"),
               Dim.dyn (some "H"), Dim.dyn (some "W")]])
      (some [shapedArg none [Dim.dyn (some "N"), Dim.dyn none,
               Dim.dyn none, Dim.dyn none]]) []) = some 1 := by
  refine ⟨fun n => rfl, fun n => rfl, fun m => rfl, ?_⟩
  simp +decide [calculate, computeConv, getTensorShape, shapedArg, shapelessArg,
    numel, normalizeName, cleanDim]

/-- C9: every successfully extracted shape is the image of the declared
dimension list under sanitization, and — under the data-model constraint
that declared numeric dimensions are non-negative integers — every one of
its elements is a non-negative integer. -/
theorem resolved_shape_nonneg (a : Argument) (res : List ℤ)
    (h : getTensorShape (some a) = some res) :
    ∃ dims : List Dim, res = dims.map cleanDim ∧
      ((∀ d ∈ dims, dimNonneg d) → ∀ x ∈ res, 0 ≤ x) := by
  obtain ⟨nm, val⟩ := a
  cases val with
  | none => simp [getTensorShape] at h
  | some vs =>
    cases vs with
    | nil => simp [getTensorShape] at h
    | cons v rest =>
      obtain ⟨ty⟩ := v
      cases ty with
      | none => simp [getTensorShape] at h
      | some t =>
        obtain ⟨sh⟩ := t
        cases sh with
        | none => simp [getTensorShape] at h
        | some shObj =>
          obtain ⟨dims?⟩ := shObj
          cases dims? with
          | none => simp [getTensorShape] at h
          | some dims =>
            simp only [getTensorShape] at h
            injection h with h
            refine ⟨dims, h.symm, ?_⟩
            intro hnn x hx
            subst h
            rw [List.mem_map] at hx
            obtain ⟨d, hd, rfl⟩ := hx
            have := hnn d hd
            cases d with
            | num n => exact this
            | long n => exact this
            | dyn m => exact zero_le_one

/-- Witness for C9: extraction on a concrete argument of shape `[2,3]`. -/
theorem resolved_shape_nonneg_witness :
    ∃ dims : List Dim, ([2, 3] : List ℤ) = dims.map cleanDim ∧
      ((∀ d ∈ dims, dimNonneg d) → ∀ x ∈ ([2, 3] : List ℤ), 0 ≤ x) :=
  resolved_shape_nonneg (shapedArg none (natDims [2, 3])) [2, 3] (by decide)

end Macs

namespace Macs

/-- `_computeConv` degrades to `null` whenever the inputs or outputs list
is absent, or the weight (index 1) or output (index 0) shape fails to
extract. -/
lemma computeConv_none_missing (ty : Option NodeType) (ins? outs? : Option (List Argument))
    (attrs : List Attrib)
    (h : ins? = none ∨ outs? = none ∨
      (∃ ins, ins? = some ins ∧ getTensorShape (ins.get? 1) = none) ∨
      (∃ outs, outs? = some outs ∧ getTensorShape (outs.get? 0) = none)) :
    computeConv (Node.mk ty ins? outs? attrs) = none := by
  rcases h with h | h | ⟨ins, rfl, hw⟩ | ⟨outs, rfl, hs⟩
  · subst h
    rfl
  · subst h
    cases ins? with
    | none => rfl
    | some ins =>
      simp only [computeConv]
      by_cases h2 : ins.length < 2
      · rw [if_pos h2]
      · rw [if_neg h2]
  · simp only [computeConv]
    by_cases h2 : ins.length < 2
    · rw [if_pos h2]
    · rw [if_neg h2]
      cases outs? with
      | none => rfl
      | some outs =>
        dsimp only
        by_cases h1 : outs.length < 1
        · rw [if_pos h1]
        · rw [if_neg h1]
          rw [hw]
  · cases ins? with
    | none => rfl
    | some ins =>
      simp only [computeConv]
      by_cases h2 : ins.length < 2
      · rw [if_pos h2]
      · rw [if_neg h2]
        by_cases h1 : outs.length < 1
        · rw [if_pos h1]
        · rw [if_neg h1]
          rw [hs]
          cases hgw : getTensorShape (ins.get? 1) <;> rfl

/-- `_computeLinear` degrades to `null` whenever the inputs or outputs
list is absent, or the weight (index 1) or output (index 0) shape fails
to extract. -/
lemma computeLinear_none_missing (ty : Option NodeType) (ins? outs? : Option (List Argument))
    (attrs : List Attrib)
    (h : ins? = none ∨ outs? = none ∨
      (∃ ins, ins? = some ins ∧ getTensorShape (ins.get? 1) = none) ∨
      (∃ outs, outs? = some outs ∧ getTensorShape (outs.get? 0) = none)) :
    computeLinear (Node.mk ty ins? outs? attrs) = none := by
  rcases h with h | h | ⟨ins, rfl, hw⟩ | ⟨outs, rfl, hs⟩
  · subst h
    rfl
  · subst h
    cases ins? <;> rfl
  · cases outs? with
    | none => rfl
    | some outs =>
      simp only [computeLinear]
      by_cases hl : ins.length < 2 ∨ outs.length < 1
      · rw [if_pos hl]
      · rw [if_neg hl]
        rw [hw]
        cases hgo : getTensorShape (outs.get? 0) <;> rfl
  · cases ins? with
    | none => rfl
    | some ins =>
      simp only [computeLinear]
      by_cases hl : ins.length < 2 ∨ outs.length < 1
      · rw [if_pos hl]
      · rw [if_neg hl]
        rw [hs]

/-- C7: `calculate` is a total function into `number | null` — its result
is always `none` or `some q` — and a missing weight or output operand
(absent lists, out-of-range indices, empty `value` sequences or shapeless
descriptors at the weight/output slots) always yields `null`. -/
theorem calculate_total_defensive :
    (∀ node : Node, calculate node = none ∨ ∃ q : ℚ, calculate node = some q) ∧
    (∀ node : Node,
      (node.inputs = none ∨ node.outputs = none ∨
        (∃ ins, node.inputs = some ins ∧ getTensorShape (ins.get? 1) = none) ∨
        (∃ outs, node.outputs = some outs ∧ getTensorShape (outs.get? 0) = none)) →
      calculate node = none) := by
  constructor
  · intro node
    cases h : calculate node with
    | none => exact Or.inl rfl
    | some q => exact Or.inr ⟨q, rfl⟩
  · intro node hmiss
    obtain ⟨ty, ins?, outs?, attrs⟩ := node
    dsimp only at hmiss
    cases ty with
    | none => rfl
    | some t =>
      obtain ⟨tn?⟩ := t
      cases tn? with
      | none => rfl
      | some tn =>
        simp only [calculate]
        by_cases h0 : tn = ""
        · rw [if_pos h0]
        · rw [if_neg h0]
          by_cases hc : normalizeName tn = "conv2d" ∨ normalizeName tn = "conv" ∨
              normalizeName tn = "convolution" ∨ normalizeName tn = "conv1d" ∨
              normalizeName tn = "conv3d"
          · rw [if_pos hc]
            exact computeConv_none_missing _ _ _ _ hmiss
          · rw [if_neg hc]
            by_cases hd : normalizeName tn = "linear" ∨ normalizeName tn = "gemm" ∨
                normalizeName tn = "matmul"
            · rw [if_pos hd]
              exact computeLinear_none_missing _ _ _ _ hmiss
            · rw [if_neg hd]

/-- Witness for C7: a convolution node with empty inputs and outputs
lists yields `null`. -/
theorem calculate_total_defensive_witness :
    calculate (Node.mk (some (NodeType.mk (some "Conv"))) (some []) (some []) []) = none :=
  calculate_total_defensive.2
    (Node.mk (some (NodeType.mk (some "Conv"))) (some []) (some []) [])
    (Or.inr (Or.inr (Or.inl ⟨[], rfl, rfl⟩)))

end Macs

namespace Macs

/-- When the normalized name falls in the dense synonym set, `calculate`
reduces to `_computeLinear`. -/
lemma calculate_dense_branch (tn : String) (ins? outs? : Option (List Argument))
    (attrs : List Attrib)
    (hne : ¬ tn = "")
    (hnotconv : ¬ (normalizeName tn = "conv2d" ∨ normalizeName tn = "conv" ∨
      normalizeName tn = "convolution" ∨ normalizeName tn = "conv1d" ∨
      normalizeName tn = "conv3d"))
    (hdense : normalizeName tn = "linear" ∨ normalizeName tn = "gemm" ∨
      normalizeName tn = "matmul") :
    calculate (Node.mk (some (NodeType.mk (some tn))) ins? outs? attrs)
      = computeLinear (Node.mk (some (NodeType.mk (some tn))) ins? outs? attrs) := by
  simp only [calculate]
  rw [if_neg hne, if_neg hnotconv, if_pos hdense]

/-- C10: for a `gemm`/`matmul` node, the computed cost does not depend on
the weight argument's dimension values — two nodes identical except for
the whole argument at the weight slot (index 1), both of whose shapes
resolve non-null, get the same result. -/
theorem matmul_weight_noninterference (tn : String) (a0 w w' : Argument)
    (rest : List Argument) (outs? : Option (List Argument)) (attrs : List Attrib)
    (hname : normalizeName tn = "gemm" ∨ normalizeName tn = "matmul")
    (hw : (getTensorShape (some w)).isSome)
    (hw' : (getTensorShape (some w')).isSome) :
    calculate (Node.mk (some (NodeType.mk (some tn))) (some (a0 :: w :: rest)) outs? attrs)
      = calculate (Node.mk (some (NodeType.mk (some tn)))
          (some (a0 :: w' :: rest)) outs? attrs) := by
  have htn : ¬ tn = "" := by
    rintro rfl
    rcases hname with h | h <;>
      · rw [show normalizeName "" = "" from rfl] at h
        exact absurd h (by decide)
  have hnotconv : ¬ (normalizeName tn = "conv2d" ∨ normalizeName tn = "conv" ∨
      normalizeName tn = "convolution" ∨ normalizeName tn = "conv1d" ∨
      normalizeName tn = "conv3d") := by
    rcases hname with h | h <;> rw [h] <;> decide
  have hdense : normalizeName tn = "linear" ∨ normalizeName tn = "gemm" ∨
      normalizeName tn = "matmul" := hname.elim (fun h => Or.inr (Or.inl h))
    (fun h => Or.inr (Or.inr h))
  have hnotlin : ¬ normalizeName tn = "linear" := by
    rcases hname with h | h <;> rw [h] <;> decide
  have hmm : normalizeName tn = "matmul" ∨ normalizeName tn = "gemm" :=
    hname.elim Or.inr Or.inl
  obtain ⟨sw, hsw⟩ := Option.isSome_iff_exists.mp hw
  obtain ⟨sw', hsw'⟩ := Option.isSome_iff_exists.mp hw'
  rw [calculate_dense_branch tn _ _ _ htn hnotconv hdense,
    calculate_dense_branch tn _ _ _ htn hnotconv hdense]
  cases outs? with
  | none => rfl
  | some outs =>
    simp only [computeLinear]
    by_cases ho1 : outs.length < 1
    · rw [if_pos (Or.inr ho1), if_pos (Or.inr ho1)]
    · have hlen : ∀ b : Argument, ¬ ((a0 :: b :: rest).length < 2 ∨ outs.length < 1) := by
        intro b
        simp only [List.length_cons, not_or]
        omega
      rw [if_neg (hlen w), if_neg (hlen w')]
      rw [show (a0 :: w :: rest).get? 1 = some w from rfl,
        show (a0 :: w' :: rest).get? 1 = some w' from rfl]
      cases hgo : getTensorShape (outs.get? 0) with
      | none => rfl
      | some o =>
        dsimp only
        rw [hsw, hsw']
        dsimp only
        have hlin1 : ¬ (normalizeName tn = "linear" ∧ 2 ≤ sw.length) :=
          fun hc => hnotlin hc.1
        have hlin2 : ¬ (normalizeName tn = "linear" ∧ 2 ≤ sw'.length) :=
          fun hc => hnotlin hc.1
        rw [if_neg hlin1, if_pos hmm, if_neg hlin2, if_pos hmm]
        rw [show (a0 :: w :: rest).get? 0 = some a0 from rfl,
          show (a0 :: w' :: rest).get? 0 = some a0 from rfl]

/-- Witness for C10: two `Gemm` nodes that differ only in the weight
tensor's shape entries (`[16,32]` vs `[7]`) get the same cost. -/
theorem matmul_weight_noninterference_witness :
    calculate (Node.mk (some (NodeType.mk (some "Gemm")))
      (some [shapedArg none (natDims [4, 8, 16]), shapedArg none (natDims [16, 32])])
      (some [shapedArg none (natDims [4, 8, 32])]) [])
    = calculate (Node.mk (some (NodeType.mk (some "Gemm")))
      (some [shapedArg none (natDims [4, 8, 16]), shapedArg none (natDims [7])])
      (some [shapedArg none (natDims [4, 8, 32])]) []) :=
  matmul_weight_noninterference "Gemm" (shapedArg none (natDims [4, 8, 16]))
    (shapedArg none (natDims [16, 32])) (shapedArg none (natDims [7])) []
    (some [shapedArg none (natDims [4, 8, 32])]) []
    (Or.inl (by decide)) (by decide) (by decide)

end Macs

namespace Macs

/-- C1: on the spec-modelled design-target estimator, a convolution node
whose output argument has no extractable shape gets its output shape
derived analytically: input `[1,3,32,32]`, weight `[16,3,3,3]`, stride
`[1,1]`, padding `[1,1]`, dilation `[1,1]` infer the output
`[1,16,32,32]`, and the cost equals the direct-output-shape case (both
`16384 * 27 = 442368`). -/
theorem conv_output_inference :
    SpecModel.inferConvOutput [1, 3, 32, 32] [16, 3, 3, 3] c1Attrs
      = some [1, 16, 32, 32] ∧
    getTensorShape (some (shapelessArg (some "output"))) = none ∧
    SpecModel.calculateSpec c1NodeInferred = SpecModel.calculateSpec c1NodeDirect ∧
    SpecModel.calculateSpec c1NodeInferred = some 442368 := by
  have hinf : SpecModel.calculateSpec c1NodeInferred = some 442368 := by
    simp +decide [SpecModel.calculateSpec, SpecModel.computeConvSpec,
      SpecModel.resolveWeight, SpecModel.matchesWeightName, SpecModel.lowerChars,
      SpecModel.inferConvOutput, SpecModel.attrLookup, SpecModel.pairOf,
      SpecModel.padOf, SpecModel.convOutDim, c1NodeInferred, c1Attrs,
      getTensorShape, shapedArg, shapelessArg, natDims, cleanDim, numel,
      normalizeName]
    norm_num
  have hdir : SpecModel.calculateSpec c1NodeDirect = some 442368 := by
    simp +decide [SpecModel.calculateSpec, SpecModel.computeConvSpec,
      SpecModel.resolveWeight, SpecModel.matchesWeightName, SpecModel.lowerChars,
      c1NodeDirect, c1Attrs, getTensorShape, shapedArg, natDims, cleanDim, numel,
      normalizeName]
    norm_num
  exact ⟨by decide, by decide, hinf.trans hdir.symm, hinf⟩

/-- C6: on the spec-modelled design-target resolver, the inputs are first
scanned for a weight-like name — here `fc.weight` at index 2, not at the
positional index 1 — and that argument's shape `[64,128]` is the one the
linear cost uses (`10*64*128 = 81920`); with no name match, resolution
falls back to `inputs[1]`. -/
theorem weight_name_resolution :
    SpecModel.resolveWeight false c6Inputs = some c6WeightArg ∧
    c6Inputs.get? 1 ≠ some c6WeightArg ∧
    SpecModel.calculateSpec c6Node = some 81920 ∧
    SpecModel.resolveWeight false c6NoNameInputs = c6NoNameInputs.get? 1 := by
  have hc : SpecModel.calculateSpec c6Node = some 81920 := by
    simp +decide [SpecModel.calculateSpec, SpecModel.computeDenseSpec,
      SpecModel.resolveWeight, SpecModel.matchesWeightName, SpecModel.lowerChars,
      c6Node, c6Inputs, c6WeightArg, getTensorShape, shapedArg, natDims, cleanDim,
      numel, normalizeName]
    norm_num
  exact ⟨by decide, by decide, hc, by decide⟩

end Macs
